import Mathlib

/-!
Verification of the ChromaDB query-facade tools
(`src/playground/agents_py/tools.py`, class `ChromaDBTools.create_tools`).

The four tools are shallowly embedded as pure Lean functions.  The external
vector store is a parameter: similarity search is a function from a query
string and a result count to the list of chunks the store returns (in
similarity-rank order), and the metadata `get` endpoint is a function from a
`where`-filter to a parallel pair of document/metadata lists, exactly the shape
the Python code consumes.  Chunk metadata models the `"page"` key as an
optional integer, so that a missing key, an explicit `0`, and a nonzero page
are all distinguishable, matching Python's `dict.get` and truthiness
semantics.  Python exceptions (unguarded `metadata["page"]` indexing) are
modelled by `Option`: a `none` result is an uncaught `KeyError`.
-/

/-- A document chunk's metadata mapping; only the `"page"` key is ever read by
the tools.  `page = none` models a metadata dict without a `"page"` key. -/
structure Metadata where
  page : Option Int
deriving DecidableEq, Repr

/-- A document chunk as returned by the store: `page_content` text plus
metadata. -/
structure Chunk where
  page_content : String
  metadata : Metadata
deriving DecidableEq, Repr

/-- The store's similarity-search endpoint: query text and requested count
`k` to the list of chunks returned, in similarity-rank order. -/
abbrev SimStore := String → Nat → List Chunk

/-- The `where` filters the code builds for `vector_store.get`:
`{"page": p}` (exact match) or `{"$or": [{"page": i} for i in pages]}`
(disjunction). -/
inductive Where where
  | eqPage (p : Int) : Where
  | orPages (pages : List Int) : Where
deriving DecidableEq, Repr

/-- Result of `vector_store.get`: parallel `documents` / `metadatas` lists. -/
structure GetResult where
  documents : List String
  metadatas : List Metadata
deriving DecidableEq, Repr

/-- The store's metadata-filter endpoint (`vector_store.get(where=...)`). -/
abbrev GetStore := Where → GetResult

/-- `metadata.get("page", "unknown")` as rendered inside `[Page {page}]`. -/
def pageStr (m : Metadata) : String :=
  match m.page with
  | some p => toString p
  | none => "unknown"

/-- `content[:t] + "..." if len(content) > t else content` — the display
truncation shared by `semantic_search` (t = 300) and
`search_with_page_filter` (t = 250). -/
def truncateContent (t : Nat) (s : String) : String :=
  if s.length > t then ⟨s.data.take t ++ "...".data⟩ else s

/-- One pass of the rendering loop
`output += f"{i}. [Page {page}]\n{content}\n\n"`, starting at index `i`
(Python `enumerate(results, 1)` starts at 1). -/
def renderFrom (t : Nat) (i : Nat) : List Chunk → String
  | [] => ""
  | c :: cs =>
      toString i ++ ". [Page " ++ pageStr c.metadata ++ "]\n"
        ++ truncateContent t c.page_content ++ "\n\n"
        ++ renderFrom t (i + 1) cs

/-- `semantic_search(query, k=5)`: similarity search, sentinel on empty,
otherwise a header plus numbered entries truncated at 300 characters. -/
def semantic_search (store : SimStore) (query : String) (k : Nat) : String :=
  let results := store query k
  if results.isEmpty then
    "No results found for the query."
  else
    "Found " ++ toString results.length ++ " relevant passages:\n\n"
      ++ renderFrom 300 1 results

/-- Python's `str` of an integer list, e.g. `[3, 5]`. -/
def pyIntList (xs : List Int) : String :=
  "[" ++ String.intercalate ", " (xs.map toString) ++ "]"

/-- Python's `str` of a string list, e.g. `['alpha', 'beta']` (repr escaping
of special characters inside the strings is not modelled; the tools never
depend on it). -/
def pyStrList (xs : List String) : String :=
  "[" ++ String.intercalate ", " (xs.map (fun s => "\x27" ++ s ++ "\x27")) ++ "]"

/-- The `where` filter `get_document_pages` builds for a nonempty page list:
`{"page": pages[0]}` when `len(pages) == 1`, else
`{"$or": [{"page": i} for i in pages]}`. -/
def requestedFilter (pages : List Int) : Where :=
  match pages with
  | [p] => Where.eqPage p
  | _ => Where.orPages pages

/-- One iteration of the rendering loop of `get_document_pages`:
`text += f"=== Page {metadata['page']} ===\n{doc}\n\n"`, aborting
(propagating `none`) on a missing `"page"` key. -/
def pageBlocksStep (acc : Option String) (dm : String × Metadata) : Option String :=
  acc.bind fun t =>
    dm.2.page.map fun p =>
      t ++ "=== Page " ++ toString p ++ " ===\n" ++ dm.1 ++ "\n\n"

/-- The body of `get_document_pages` after the store call: empty-documents
sentinel, else the `=== Page n ===` blocks over `zip(documents, metadatas)`.
`metadata["page"]` is unguarded indexing, so a zipped metadata without a
page key aborts the call (`none`). -/
def renderGetCtx (ctx : GetResult) (pages : List Int) : Option String :=
  if ctx.documents.isEmpty then
    some ("No content found for pages: " ++ pyIntList pages)
  else
    (ctx.documents.zip ctx.metadatas).foldl pageBlocksStep (some "")

/-- `get_document_pages(pages)`: sentinel on the empty list (no store call),
otherwise one `vector_store.get` with the exact-match or disjunctive filter,
then the shared rendering. -/
def get_document_pages (store : GetStore) (pages : List Int) : Option String :=
  match pages with
  | [] => some "No pages specified."
  | _ => renderGetCtx (store (requestedFilter pages)) pages

/-- The range test `start_page <= res.metadata.get("page", 0) <= end_page`. -/
def pageInRange (sp ep : Int) (c : Chunk) : Bool :=
  decide (sp ≤ c.metadata.page.getD 0) && decide (c.metadata.page.getD 0 ≤ ep)

/-- The filtered list of `search_with_page_filter`: over-fetch `k * 3`
similarity results, keep the in-range ones, truncate to the first `k`. -/
def filteredChunks (store : SimStore) (query : String) (sp ep : Int)
    (k : Nat) : List Chunk :=
  ((store query (k * 3)).filter (pageInRange sp ep)).take k

/-- `search_with_page_filter(query, start_page, end_page, k=3)`. -/
def search_with_page_filter (store : SimStore) (query : String)
    (sp ep : Int) (k : Nat) : String :=
  let filtered := filteredChunks store query sp ep k
  if filtered.isEmpty then
    "No results found in pages " ++ toString sp ++ "-" ++ toString ep ++ "."
  else
    "Found " ++ toString filtered.length ++ " results in pages "
      ++ toString sp ++ "-" ++ toString ep ++ ":\n\n"
      ++ renderFrom 250 1 filtered

/-- Python truthiness of `res.metadata.get("page")`: the page survives the
list-comprehension guard only when present and nonzero. -/
def truthyPage : Option Int → Option Int
  | some p => if p = 0 then none else some p
  | none => none

/-- `[res.metadata.get("page") for res in results if res.metadata.get("page")]`:
the pages collected from one keyword's results. -/
def chunkPages (results : List Chunk) : List Int :=
  results.filterMap (fun c => truthyPage c.metadata.page)

/-- `all_pages.update(pages)`: Python-set insertion of each page in turn,
keeping the accumulator duplicate-free.  (A Python `set` has no observable
order here — the only thing ever read from it is `sorted(list(...))` — so a
duplicate-free list is a faithful model.) -/
def setUpdate (acc : List Int) : List Int → List Int
  | [] => acc
  | p :: ps => setUpdate (if p ∈ acc then acc else acc ++ [p]) ps

/-- The deduplicated union `all_pages` accumulated over the keywords, each
searched with fixed `k = 10`. -/
def keywordPages (store : SimStore) (keywords : List String) : List Int :=
  keywords.foldl (fun acc kw => setUpdate acc (chunkPages (store kw 10))) []

/-- `sorted(list(all_pages))`. -/
def keywordSortedPages (store : SimStore) (keywords : List String) : List Int :=
  List.insertionSort (· ≤ ·) (keywordPages store keywords)

/-- `find_pages_by_keywords(keywords)`. -/
def find_pages_by_keywords (store : SimStore) (keywords : List String) : String :=
  if keywords.isEmpty then
    "No keywords provided."
  else if (keywordPages store keywords).isEmpty then
    "No pages found containing keywords: " ++ pyStrList keywords
  else
    let sorted_pages := keywordSortedPages store keywords
    "Found " ++ toString sorted_pages.length ++ " pages containing keywords "
      ++ pyStrList keywords ++ ":\nPages: " ++ pyIntList sorted_pages

example : truncateContent 5 "abcdefgh" = "abcde..." := by decide
example : truncateContent 5 "abc" = "abc" := by decide
example : pyIntList [3, 5] = "[3, 5]" := by decide
example :
    semantic_search (fun _ _ => []) "q" 5 = "No results found for the query." := by
  decide
example :
    semantic_search (fun _ _ => [⟨"hi", ⟨some 4⟩⟩]) "q" 5 =
      "Found 1 relevant passages:\n\n1. [Page 4]\nhi\n\n" := by
  decide
example : get_document_pages (fun _ => ⟨[], []⟩) [] = some "No pages specified." := by
  decide
example :
    get_document_pages (fun _ => ⟨[], []⟩) [7] =
      some "No content found for pages: [7]" := by
  decide
example :
    get_document_pages (fun _ => ⟨["body"], [⟨some 7⟩]⟩) [7] =
      some "=== Page 7 ===\nbody\n\n" := by
  decide
example :
    get_document_pages (fun _ => ⟨["body"], [⟨none⟩]⟩) [7] = none := by
  decide
example :
    find_pages_by_keywords
      (fun kw _ => if kw = "a" then [⟨"x", ⟨some 4⟩⟩, ⟨"y", ⟨some 2⟩⟩]
        else [⟨"z", ⟨some 4⟩⟩]) ["a", "b"] =
      "Found 2 pages containing keywords [\x27a\x27, \x27b\x27]:\nPages: [2, 4]" := by
  rfl

/-! ### Helper lemmas -/

lemma pageBlocksStep_none (l : List (String × Metadata)) :
    l.foldl pageBlocksStep none = none := by
  induction l with
  | nil => rfl
  | cons dm l ih => simpa [pageBlocksStep] using ih

lemma foldl_pageBlocksStep_eq_none (l : List (String × Metadata))
    (acc : Option String) (dm : String × Metadata)
    (hmem : dm ∈ l) (hpage : dm.2.page = none) :
    l.foldl pageBlocksStep acc = none := by
  induction l generalizing acc with
  | nil => cases hmem
  | cons hd tl ih =>
      rcases List.mem_cons.mp hmem with h | h
      · subst h
        have hstep : pageBlocksStep acc dm = none := by
          cases acc <;> simp [pageBlocksStep, hpage]
        rw [List.foldl_cons, hstep, pageBlocksStep_none]
      · exact ih _ h

/-! ### Claim theorems -/

/-- Claim C6: `get_document_pages([])` returns exactly the string
`"No pages specified."`; the result is the same for every store, so no store
invocation can influence it (the definition never consults `store` on the
empty list). -/
theorem C6_get_document_pages_empty (store : GetStore) :
    get_document_pages store [] = some "No pages specified." := rfl

/-- Claim C4: for the thresholds used by `semantic_search` (300) and
`search_with_page_filter` (250), a content string longer than the threshold
renders as exactly `threshold + 3` characters ending in `"..."`, and a
content string of at most the threshold renders unchanged. -/
theorem C4_truncation (s : String) (t : Nat) (ht : t = 300 ∨ t = 250) :
    (s.length > t →
      (truncateContent t s).length = t + 3 ∧
        "...".data <:+ (truncateContent t s).data) ∧
    (s.length ≤ t → truncateContent t s = s) := by
  clear ht
  constructor
  · intro h
    unfold truncateContent
    rw [if_pos h]
    constructor
    · show (s.data.take t ++ "...".data).length = t + 3
      rw [List.length_append, List.length_take]
      have hs : s.length = s.data.length := rfl
      have h3 : "...".data.length = 3 := rfl
      omega
    · exact List.suffix_append _ _
  · intro h
    unfold truncateContent
    rw [if_neg (by omega)]

theorem C4_truncation_witness :
    truncateContent 250 "hi" = "hi" ∧
      (truncateContent 300 (String.mk (List.replicate 301 'a'))).length = 303 :=
  ⟨(C4_truncation "hi" 250 (Or.inr rfl)).2 (by decide),
   (((C4_truncation (String.mk (List.replicate 301 'a')) 300 (Or.inl rfl)).1
      (by show (List.replicate 301 'a').length > 300
          rw [List.length_replicate]
          omega)).1)⟩

/-- Claim C5: `get_document_pages` issues the exact-match filter
`{"page": p}` for a singleton `[p]` and the disjunctive `$or` filter for two
or more pages — the output depends on the store only through that filter —
and in both cases an empty `documents` answer yields the sentinel
`"No content found for pages: "` followed by the requested page list. -/
theorem C5_gdp_filters (s1 s2 : GetStore) (pages : List Int) :
    (∀ p, pages = [p] → s1 (Where.eqPage p) = s2 (Where.eqPage p) →
      get_document_pages s1 pages = get_document_pages s2 pages) ∧
    (2 ≤ pages.length → s1 (Where.orPages pages) = s2 (Where.orPages pages) →
      get_document_pages s1 pages = get_document_pages s2 pages) ∧
    (∀ p, pages = [p] → (s1 (Where.eqPage p)).documents = [] →
      get_document_pages s1 pages =
        some ("No content found for pages: " ++ pyIntList pages)) ∧
    (2 ≤ pages.length → (s1 (Where.orPages pages)).documents = [] →
      get_document_pages s1 pages =
        some ("No content found for pages: " ++ pyIntList pages)) := by
  have hfilter : ∀ p, pages = [p] → requestedFilter pages = Where.eqPage p := by
    intro p hp; subst hp; rfl
  have hfilter2 : 2 ≤ pages.length → requestedFilter pages = Where.orPages pages := by
    intro h2
    match pages, h2 with
    | a :: b :: t, _ => rfl
  refine ⟨?_, ?_, ?_, ?_⟩
  · intro p hp hs
    subst hp
    simp only [get_document_pages, hfilter p rfl, hs]
  · intro h2 hs
    match pages, h2 with
    | a :: b :: t, h2 =>
        simp only [get_document_pages, hfilter2 h2, hs]
  · intro p hp hdocs
    subst hp
    simp only [get_document_pages, hfilter p rfl, renderGetCtx, hdocs,
      List.isEmpty_nil, if_true]
  · intro h2 hdocs
    match pages, h2 with
    | a :: b :: t, h2 =>
        simp only [get_document_pages, hfilter2 h2, renderGetCtx, hdocs,
          List.isEmpty_nil, if_true]

theorem C5_gdp_filters_witness :
    get_document_pages (fun _ => GetResult.mk [] []) [7] =
      some "No content found for pages: [7]" :=
  ((C5_gdp_filters (fun _ => GetResult.mk [] []) (fun _ => GetResult.mk [] [])
      [7]).2.2.1 7 rfl rfl).trans (by decide)

/-- Claim C8: when the store answers a nonempty `get_document_pages` request
with at least one document whose zipped metadata lacks the `"page"` key, the
unguarded `metadata["page"]` indexing raises (modelled as `none`) instead of
rendering a default. -/
theorem C8_gdp_missing_page_raises (store : GetStore) (pages : List Int)
    (hne : pages ≠ [])
    (hmiss : ∃ dm ∈ (store (requestedFilter pages)).documents.zip
        (store (requestedFilter pages)).metadatas, dm.2.page = none) :
    get_document_pages store pages = none := by
  obtain ⟨dm, hmem, hpage⟩ := hmiss
  have hdocs : ¬(store (requestedFilter pages)).documents.isEmpty := by
    intro hempty
    rw [List.isEmpty_iff] at hempty
    rw [hempty] at hmem
    simp at hmem
  have hrender : renderGetCtx (store (requestedFilter pages)) pages = none := by
    unfold renderGetCtx
    rw [if_neg hdocs]
    exact foldl_pageBlocksStep_eq_none _ _ dm hmem hpage
  match pages, hne with
  | a :: t, _ =>
      simpa only [get_document_pages] using hrender

theorem C8_gdp_missing_page_raises_witness :
    get_document_pages (fun _ => GetResult.mk ["body"] [Metadata.mk none]) [7] =
      none :=
  C8_gdp_missing_page_raises (fun _ => GetResult.mk ["body"] [Metadata.mk none])
    [7] (by decide) ⟨("body", Metadata.mk none), by decide, rfl⟩

lemma found_ne_sentinel (s : String) :
    "Found " ++ s ≠ "No results found for the query." := by
  intro h
  have h2 : ("Found " ++ s).data = "No results found for the query.".data := by
    rw [h]
  rw [String.data_append] at h2
  rw [show "Found ".data = 'F' :: "ound ".data from rfl] at h2
  rw [show "No results found for the query.".data
      = 'N' :: "o results found for the query.".data from rfl] at h2
  rw [List.cons_append] at h2
  injection h2 with h3 _
  exact absurd h3 (by decide)

/-- Claim C2: `semantic_search` returns the exact sentinel
`"No results found for the query."` precisely when the store returns zero
chunks; otherwise the output contains the substring
`"Found N relevant passages"` with `N` the number of chunks returned. -/
theorem C2_semantic_search_sentinel (store : SimStore) (q : String) (k : Nat) :
    (semantic_search store q k = "No results found for the query." ↔
      store q k = []) ∧
    (store q k ≠ [] →
      ("Found " ++ toString (store q k).length ++ " relevant passages").data <:+:
        (semantic_search store q k).data) := by
  cases hres : store q k with
  | nil =>
      constructor
      · simp [semantic_search, hres]
      · intro h; exact absurd rfl h
  | cons c cs =>
      have hout : semantic_search store q k
          = "Found " ++ toString (c :: cs).length ++ " relevant passages:\n\n"
            ++ renderFrom 300 1 (c :: cs) := by
        simp [semantic_search, hres]
      constructor
      · constructor
        · intro h
          exfalso
          rw [hout] at h
          rw [String.append_assoc, String.append_assoc] at h
          exact found_ne_sentinel _ h
        · intro h; cases h
      · intro _
        rw [hout]
        apply List.IsPrefix.isInfix
        rw [String.data_append, String.data_append, String.data_append,
          String.data_append]
        rw [show " relevant passages:\n\n".data
            = " relevant passages".data ++ ":\n\n".data from rfl]
        refine ⟨":\n\n".data ++ (renderFrom 300 1 (c :: cs)).data, ?_⟩
        simp [List.append_assoc]

theorem C2_semantic_search_sentinel_witness :
    ("Found " ++ toString ((fun (_ : String) (_ : Nat) =>
        [Chunk.mk "hi" (Metadata.mk (some 4))]) "q" 5).length
      ++ " relevant passages").data <:+:
      (semantic_search (fun _ _ => [Chunk.mk "hi" (Metadata.mk (some 4))])
        "q" 5).data :=
  (C2_semantic_search_sentinel (fun _ _ => [Chunk.mk "hi" (Metadata.mk (some 4))])
    "q" 5).2 (by decide)

/-- Claim C9: in `search_with_page_filter`, a chunk without a `"page"` key is
range-tested as page `0` (`metadata.get("page", 0)`): it passes the filter
exactly when `start_page ≤ 0 ≤ end_page`, is never returned otherwise, and
renders as `"unknown"` in the `[Page ...]` label. -/
theorem C9_missing_page_as_zero (store : SimStore) (q : String)
    (sp ep : Int) (k : Nat) (c : Chunk) (h : c.metadata.page = none) :
    (pageInRange sp ep c = true ↔ sp ≤ 0 ∧ 0 ≤ ep) ∧
    (c ∈ (store q (k * 3)).filter (pageInRange sp ep) ↔
      c ∈ store q (k * 3) ∧ (sp ≤ 0 ∧ 0 ≤ ep)) ∧
    (¬(sp ≤ 0 ∧ 0 ≤ ep) → c ∉ filteredChunks store q sp ep k) ∧
    pageStr c.metadata = "unknown" := by
  have hpr : pageInRange sp ep c = true ↔ sp ≤ 0 ∧ 0 ≤ ep := by
    simp [pageInRange, h]
  refine ⟨hpr, ?_, ?_, ?_⟩
  · rw [List.mem_filter, hpr]
  · intro hnot hmem
    rw [filteredChunks] at hmem
    have hmem2 := List.mem_of_mem_take hmem
    rw [List.mem_filter, hpr] at hmem2
    exact hnot hmem2.2
  · simp [pageStr, h]

theorem C9_missing_page_as_zero_witness :
    pageStr (Chunk.mk "x" (Metadata.mk none)).metadata = "unknown" :=
  (C9_missing_page_as_zero (fun _ _ => []) "" 0 0 1
    (Chunk.mk "x" (Metadata.mk none)) rfl).2.2.2

lemma zero_not_mem_chunkPages (results : List Chunk) :
    (0 : Int) ∉ chunkPages results := by
  intro hmem
  rw [chunkPages, List.mem_filterMap] at hmem
  obtain ⟨c, _, hc⟩ := hmem
  cases hp : c.metadata.page with
  | none => rw [hp] at hc; cases hc
  | some p =>
      rw [hp] at hc
      by_cases h0 : p = 0
      · subst h0; simp [truthyPage] at hc
      · rw [truthyPage, if_neg h0] at hc
        exact h0 (Option.some_injective _ hc)

lemma mem_setUpdate (x : Int) (acc ps : List Int) :
    x ∈ setUpdate acc ps ↔ x ∈ acc ∨ x ∈ ps := by
  induction ps generalizing acc with
  | nil => simp [setUpdate]
  | cons p ps ih =>
      show x ∈ setUpdate (if p ∈ acc then acc else acc ++ [p]) ps ↔ _
      rw [ih]
      by_cases hp : p ∈ acc
      · rw [if_pos hp]
        constructor
        · rintro (h' | h')
          · exact Or.inl h'
          · exact Or.inr (List.mem_cons_of_mem _ h')
        · rintro (h' | h')
          · exact Or.inl h'
          · rcases List.mem_cons.mp h' with h'' | h''
            · subst h''; exact Or.inl hp
            · exact Or.inr h''
      · rw [if_neg hp]
        simp only [List.mem_append, List.mem_singleton, List.mem_cons,
          List.mem_nil_iff, or_false, or_assoc]

lemma nodup_setUpdate (acc ps : List Int) (h : acc.Nodup) :
    (setUpdate acc ps).Nodup := by
  induction ps generalizing acc with
  | nil => exact h
  | cons p ps ih =>
      show (setUpdate (if p ∈ acc then acc else acc ++ [p]) ps).Nodup
      apply ih
      by_cases hp : p ∈ acc
      · rwa [if_pos hp]
      · rw [if_neg hp]
        simp [List.nodup_append, h, hp]

lemma mem_foldl_setUpdate (store : SimStore) (x : Int) (kws : List String)
    (acc : List Int) :
    x ∈ kws.foldl (fun a kw => setUpdate a (chunkPages (store kw 10))) acc ↔
      x ∈ acc ∨ ∃ kw ∈ kws, x ∈ chunkPages (store kw 10) := by
  induction kws generalizing acc with
  | nil => simp
  | cons kw kws ih =>
      rw [List.foldl_cons, ih, mem_setUpdate]
      constructor
      · rintro ((h' | h') | h')
        · exact Or.inl h'
        · exact Or.inr ⟨kw, List.mem_cons_self kw kws, h'⟩
        · obtain ⟨kw', hkw', hx⟩ := h'
          exact Or.inr ⟨kw', List.mem_cons_of_mem _ hkw', hx⟩
      · rintro (h' | ⟨kw', hkw', hx⟩)
        · exact Or.inl (Or.inl h')
        · rcases List.mem_cons.mp hkw' with h'' | h''
          · subst h''; exact Or.inl (Or.inr hx)
          · exact Or.inr ⟨kw', h'', hx⟩

lemma nodup_foldl_setUpdate (store : SimStore) (kws : List String)
    (acc : List Int) (h : acc.Nodup) :
    (kws.foldl (fun a kw => setUpdate a (chunkPages (store kw 10))) acc).Nodup := by
  induction kws generalizing acc with
  | nil => exact h
  | cons kw kws ih =>
      rw [List.foldl_cons]
      exact ih _ (nodup_setUpdate _ _ h)

/-- Claim C10: the truthiness guard `if res.metadata.get("page")` in
`find_pages_by_keywords` drops a page that is explicitly `0` exactly as it
drops a missing page, so `0` can never appear in the collected page set or
in the rendered sorted list. -/
theorem C10_zero_page_excluded (store : SimStore) (keywords : List String) :
    (∀ c : Chunk, c.metadata.page = some 0 → truthyPage c.metadata.page = none) ∧
    (0 : Int) ∉ keywordPages store keywords ∧
    (0 : Int) ∉ keywordSortedPages store keywords := by
  have hkp : (0 : Int) ∉ keywordPages store keywords := by
    intro hmem
    rw [keywordPages, mem_foldl_setUpdate] at hmem
    rcases hmem with h | ⟨kw, _, h⟩
    · cases h
    · exact zero_not_mem_chunkPages _ h
  refine ⟨fun c hc => by rw [hc]; rfl, hkp, ?_⟩
  intro hmem
  rw [keywordSortedPages] at hmem
  exact hkp ((List.perm_insertionSort _ _).mem_iff.mp hmem)

theorem C10_zero_page_excluded_witness :
    truthyPage (Chunk.mk "x" (Metadata.mk (some 0))).metadata.page = none :=
  (C10_zero_page_excluded (fun _ _ => []) []).1
    (Chunk.mk "x" (Metadata.mk (some 0))) rfl

/-- Claim C1: `search_with_page_filter` requests `k * 3` similarity results
(its output depends on the store only through `store query (k * 3)`), keeps
only chunks whose page metadata (read with default `0`) lies in
`[start_page, end_page]` inclusive, and returns at most `k` of them as a
sublist — hence in similarity-rank order — of the store's answer. -/
theorem C1_page_filter (store : SimStore) (q : String) (sp ep : Int) (k : Nat)
    (hk : 1 ≤ k) (hrange : sp ≤ ep) :
    (filteredChunks store q sp ep k).length ≤ k ∧
    (filteredChunks store q sp ep k).Sublist (store q (k * 3)) ∧
    (∀ c ∈ filteredChunks store q sp ep k,
      sp ≤ c.metadata.page.getD 0 ∧ c.metadata.page.getD 0 ≤ ep) ∧
    (∀ s2 : SimStore, store q (k * 3) = s2 q (k * 3) →
      search_with_page_filter store q sp ep k
        = search_with_page_filter s2 q sp ep k) := by
  clear hk hrange
  refine ⟨List.length_take_le _ _, ?_, ?_, ?_⟩
  · exact (List.take_sublist _ _).trans (List.filter_sublist _)
  · intro c hc
    rw [filteredChunks] at hc
    have h2 := (List.mem_filter.mp (List.mem_of_mem_take hc)).2
    simp only [pageInRange, Bool.and_eq_true, decide_eq_true_eq] at h2
    exact h2
  · intro s2 hs
    rw [search_with_page_filter, search_with_page_filter,
      filteredChunks, filteredChunks, hs]

theorem C1_page_filter_witness :
    (filteredChunks (fun _ _ => [Chunk.mk "x" (Metadata.mk (some 5))])
      "q" 1 9 1).length ≤ 1 :=
  (C1_page_filter (fun _ _ => [Chunk.mk "x" (Metadata.mk (some 5))]) "q" 1 9 1
    (by decide) (by decide)).1

lemma foldl_setUpdate_congr (s1 s2 : SimStore) (kws : List String)
    (acc : List Int) (hs : ∀ kw ∈ kws, s1 kw 10 = s2 kw 10) :
    kws.foldl (fun a kw => setUpdate a (chunkPages (s1 kw 10))) acc
      = kws.foldl (fun a kw => setUpdate a (chunkPages (s2 kw 10))) acc := by
  induction kws generalizing acc with
  | nil => rfl
  | cons kw kws ih =>
      rw [List.foldl_cons, List.foldl_cons, hs kw (List.mem_cons_self kw kws)]
      exact ih _ (fun kw' h' => hs kw' (List.mem_cons_of_mem _ h'))

/-- Claim C3: for a nonempty keyword list, `find_pages_by_keywords` depends
on the store only through one `k = 10` similarity search per keyword; the
rendered page list is sorted ascending, duplicate-free, and contains exactly
the pages surfaced by at least one keyword — a page surfaced by several
keywords appears once. -/
theorem C3_find_pages_union (store : SimStore) (keywords : List String)
    (h : keywords ≠ []) :
    List.Sorted (· ≤ ·) (keywordSortedPages store keywords) ∧
    (keywordSortedPages store keywords).Nodup ∧
    (∀ p, p ∈ keywordSortedPages store keywords ↔
      ∃ kw ∈ keywords, p ∈ chunkPages (store kw 10)) ∧
    (∀ s2 : SimStore, (∀ kw ∈ keywords, store kw 10 = s2 kw 10) →
      find_pages_by_keywords store keywords
        = find_pages_by_keywords s2 keywords) := by
  clear h
  refine ⟨List.sorted_insertionSort _ _, ?_, ?_, ?_⟩
  · exact (List.perm_insertionSort _ _).symm.nodup
      (nodup_foldl_setUpdate store keywords [] List.nodup_nil)
  · intro p
    rw [keywordSortedPages, (List.perm_insertionSort _ _).mem_iff,
      keywordPages, mem_foldl_setUpdate]
    simp
  · intro s2 hs
    have hkp : keywordPages store keywords = keywordPages s2 keywords :=
      foldl_setUpdate_congr store s2 keywords [] hs
    rw [find_pages_by_keywords, find_pages_by_keywords,
      keywordSortedPages, keywordSortedPages, hkp]

theorem C3_find_pages_union_witness :
    List.Sorted (· ≤ ·)
      (keywordSortedPages (fun _ _ => [Chunk.mk "x" (Metadata.mk (some 4))])
        ["alpha"]) :=
  (C3_find_pages_union (fun _ _ => [Chunk.mk "x" (Metadata.mk (some 4))])
    ["alpha"] (by decide)).1

/-!
### State-passing embedding (frame property)

To state that no tool mutates the store, the tools are re-embedded in
explicit state-passing style over a `VectorStore` state holding the two
endpoints.  Each external call (`similarity_search`, `get`) is a read that
threads the state through, exactly as the Python methods are queries on the
Chroma collection; the tool bodies contain no other state access, mirroring
the absence of any mutating statement in the source.
-/

/-- The shared store handle (`self.vector_store`) as explicit state. -/
structure VectorStore where
  sim : SimStore
  getw : GetStore

/-- `self.vector_store.similarity_search(query, k=k)` as a state action. -/
def similarity_searchM (query : String) (k : Nat) :
    StateM VectorStore (List Chunk) :=
  fun s => (s.sim query k, s)

/-- `self.vector_store.get(where=w)` as a state action. -/
def vectorGetM (w : Where) : StateM VectorStore GetResult :=
  fun s => (s.getw w, s)

/-- `semantic_search` in state-passing style. -/
def semantic_searchM (query : String) (k : Nat) : StateM VectorStore String :=
  fun s =>
    let (results, s₁) := similarity_searchM query k s
    if results.isEmpty then
      ("No results found for the query.", s₁)
    else
      ("Found " ++ toString results.length ++ " relevant passages:\n\n"
        ++ renderFrom 300 1 results, s₁)

/-- `get_document_pages` in state-passing style. -/
def get_document_pagesM (pages : List Int) :
    StateM VectorStore (Option String) :=
  fun s =>
    match pages with
    | [] => (some "No pages specified.", s)
    | _ =>
        let (ctx, s₁) := vectorGetM (requestedFilter pages) s
        (renderGetCtx ctx pages, s₁)

/-- `search_with_page_filter` in state-passing style. -/
def search_with_page_filterM (query : String) (sp ep : Int) (k : Nat) :
    StateM VectorStore String :=
  fun s =>
    let (results, s₁) := similarity_searchM query (k * 3) s
    let filtered := (results.filter (pageInRange sp ep)).take k
    if filtered.isEmpty then
      ("No results found in pages " ++ toString sp ++ "-" ++ toString ep ++ ".",
        s₁)
    else
      ("Found " ++ toString filtered.length ++ " results in pages "
        ++ toString sp ++ "-" ++ toString ep ++ ":\n\n"
        ++ renderFrom 250 1 filtered, s₁)

/-- The `for keyword in keywords` accumulation loop of
`find_pages_by_keywords` in state-passing style. -/
def collectPagesM (acc : List Int) :
    List String → StateM VectorStore (List Int)
  | [] => fun s => (acc, s)
  | kw :: kws => fun s =>
      let (results, s₁) := similarity_searchM kw 10 s
      collectPagesM (setUpdate acc (chunkPages results)) kws s₁

/-- `find_pages_by_keywords` in state-passing style. -/
def find_pages_by_keywordsM (keywords : List String) :
    StateM VectorStore String :=
  fun s =>
    if keywords.isEmpty then
      ("No keywords provided.", s)
    else
      let (all_pages, s₁) := collectPagesM [] keywords s
      if all_pages.isEmpty then
        ("No pages found containing keywords: " ++ pyStrList keywords, s₁)
      else
        let sorted_pages := List.insertionSort (· ≤ ·) all_pages
        ("Found " ++ toString sorted_pages.length
          ++ " pages containing keywords " ++ pyStrList keywords
          ++ ":\nPages: " ++ pyIntList sorted_pages, s₁)

lemma collectPagesM_apply (kws : List String) (acc : List Int)
    (s : VectorStore) :
    collectPagesM acc kws s
      = (kws.foldl (fun a kw => setUpdate a (chunkPages (s.sim kw 10))) acc,
          s) := by
  induction kws generalizing acc with
  | nil => rfl
  | cons kw kws ih =>
      show collectPagesM (setUpdate acc (chunkPages (s.sim kw 10))) kws s = _
      rw [ih, List.foldl_cons]

/-- Claim C7: every operation is a pure read of the store: run in
state-passing style from any store state, each of the four tools returns that
state unchanged together with exactly the value of its pure embedding — no
call mutates the store or the chunks it holds, and truncation happens only in
the rendered string. -/
theorem C7_no_mutation (s : VectorStore) (q : String) (k : Nat) (sp ep : Int)
    (pages : List Int) (keywords : List String) :
    (semantic_searchM q k).run s = (semantic_search s.sim q k, s) ∧
    (get_document_pagesM pages).run s = (get_document_pages s.getw pages, s) ∧
    (search_with_page_filterM q sp ep k).run s
      = (search_with_page_filter s.sim q sp ep k, s) ∧
    (find_pages_by_keywordsM keywords).run s
      = (find_pages_by_keywords s.sim keywords, s) := by
  refine ⟨?_, ?_, ?_, ?_⟩
  · cases hres : (s.sim q k).isEmpty <;>
      simp [semantic_searchM, semantic_search, similarity_searchM,
        StateT.run, hres]
  · cases pages <;> rfl
  · cases hres :
      (((s.sim q (k * 3)).filter (pageInRange sp ep)).take k).isEmpty <;>
      simp [search_with_page_filterM, search_with_page_filter,
        similarity_searchM, filteredChunks, StateT.run, hres]
  · cases hkw : keywords.isEmpty
    · have hc := collectPagesM_apply keywords [] s
      simp [find_pages_by_keywordsM, find_pages_by_keywords,
        keywordSortedPages, keywordPages, StateT.run, hkw, hc]
      split <;> rfl
    · simp [find_pages_by_keywordsM, find_pages_by_keywords, StateT.run, hkw]
